import Mathlib

/-!
Shallow embedding of the record-collection repository's data-consistency and
search layer (`src/api/crud.py`, `src/database/models.py`, `src/api/schemas.py`).

The SQLAlchemy session/database is modelled as an explicit `DB` state holding
the three tables (`records`, `genres`, `tracks`) together with the
autoincrement counters of their integer primary keys.  The many-to-many
`record_genre` join table is carried as a list of genre ids inside each
`Record` (mirroring the `Record.genres` relationship list that
`create_record`/`update_record` manipulate); the derived join-table content is
recovered by `genreEdges`.  Dates are modelled as natural numbers and
`date.today()` / `datetime.utcnow` become an explicit `now` argument.
Python `float` prices are modelled as rationals.
-/

namespace RecordCollection

/-- Model of `models.Genre`: an id and a unique name. -/
structure Genre where
  id : Nat
  name : String
deriving DecidableEq, Repr

/-- Model of `models.Track`: id, owning record id, title, optional position
and duration strings. -/
structure Track where
  id : Nat
  record_id : Nat
  title : String
  position : Option String
  duration : Option String
deriving DecidableEq, Repr

/-- Model of `models.Record`: all scalar columns plus the `genres`
relationship list, carried as the list of genre ids in relationship order. -/
structure Record where
  id : Nat
  title : String
  artist : String
  release_date : Option Nat
  label : Option String
  catalog_number : Option String
  format : Option String
  condition : Option String
  purchase_date : Option Nat
  purchase_price : Option Rat
  album_art_url : Option String
  notes : Option String
  discogs_url : Option String
  review_url : Option String
  created_at : Nat
  updated_at : Nat
  genres : List Nat
deriving DecidableEq, Repr

/-- Model of the SQLAlchemy session/database state: the three tables in
insertion (primary-key) order plus the autoincrement counters. -/
structure DB where
  records : List Record
  genres : List Genre
  tracks : List Track
  nextRecordId : Nat
  nextGenreId : Nat
  nextTrackId : Nat
deriving DecidableEq, Repr

/-- Model of `schemas.TrackCreate`. -/
structure TrackCreate where
  title : String
  position : Option String
  duration : Option String
deriving DecidableEq, Repr

/-- Model of `schemas.RecordCreate` (genres/tracks default to `[]`). -/
structure RecordCreate where
  title : String
  artist : String
  release_date : Option Nat
  label : Option String
  catalog_number : Option String
  format : Option String
  condition : Option String
  purchase_date : Option Nat
  purchase_price : Option Rat
  album_art_url : Option String
  notes : Option String
  discogs_url : Option String
  review_url : Option String
  genres : List String
  tracks : List TrackCreate
deriving DecidableEq, Repr

/-- Model of `schemas.RecordUpdate` after `dict(exclude_unset=True)`: the
outer `Option` of every field records whether the key is present in the
partial input; for nullable columns the inner `Option` is the value itself. -/
structure RecordUpdate where
  title : Option String
  artist : Option String
  release_date : Option (Option Nat)
  label : Option (Option String)
  catalog_number : Option (Option String)
  format : Option (Option String)
  condition : Option (Option String)
  purchase_date : Option (Option Nat)
  purchase_price : Option (Option Rat)
  album_art_url : Option (Option String)
  notes : Option (Option String)
  discogs_url : Option (Option String)
  review_url : Option (Option String)
  genres : Option (List String)
  tracks : Option (List TrackCreate)
deriving DecidableEq, Repr

/-- A `RecordUpdate` with no key present (empty partial input). -/
def emptyUpdate : RecordUpdate :=
  ⟨none, none, none, none, none, none, none, none, none, none, none, none,
   none, none, none⟩

/-- Prefix test on code lists (`needle` against `hay`), used to decide the
spec's literal-substring relation. -/
def chStarts : List Nat → List Nat → Bool
  | [], _ => true
  | _ :: _, [] => false
  | a :: as, b :: bs => (a == b) && chStarts as bs

/-- Literal (wildcard-free) substring test on code lists: does `needle` occur
contiguously in `hay`?  This decides the spec's "the query appears as a
substring of the field" relation. -/
def hasSub (needle : List Nat) : List Nat → Bool
  | [] => chStarts needle []
  | b :: bs => chStarts needle (b :: bs) || hasSub needle bs

/-- ASCII lower-casing of one character code (SQLite's `LIKE` is
case-insensitive on ASCII letters only). -/
def lowerCode (c : Char) : Nat :=
  if 65 ≤ c.toNat ∧ c.toNat ≤ 90 then c.toNat + 32 else c.toNat

/-- Lower-cased character-code list of a string. -/
def lowerChars (s : String) : List Nat := s.toList.map lowerCode

/-- SQL `LIKE` matching of a pattern against a string, on character-code
lists: `37` (the code of the percent sign) matches any sequence, `95` (the
code of the underscore) matches any single character, every other code
matches itself.  The first argument is fuel; every recursive call shrinks
`pattern.length + s.length`, so fuel `pattern.length + s.length` always
suffices and the `0` fallback is unreachable from `likeMatch`. -/
def likeAux (fuel : Nat) (p s : List Nat) : Bool :=
  match p with
  | [] => s.isEmpty
  | p0 :: ps =>
    match fuel with
    | 0 => false
    | f + 1 =>
      if p0 = 37 then
        likeAux f ps s ||
          (match s with
           | [] => false
           | _ :: s' => likeAux f (p0 :: ps) s')
      else
        match s with
        | [] => false
        | c :: s' => ((p0 == 95) || (p0 == c)) && likeAux f ps s'

/-- SQL `LIKE` matching with sufficient fuel. -/
def likeMatch (pattern s : List Nat) : Bool :=
  likeAux (pattern.length + s.length) pattern s

/-- Model of `column ILIKE f"%{query}%"` on a non-NULL column value: the code
(crud.py line 28) interpolates the query unescaped into the pattern, so `%`
and `_` inside the query keep their SQL wildcard meaning; the surrounding
percent signs make it a containment test.  Case-insensitivity is ASCII
lower-casing of both sides. -/
def ciContains (hay query : String) : Bool :=
  likeMatch (37 :: (lowerChars query ++ [37])) (lowerChars hay)

/-- Does a lowered query contain no SQL `LIKE` wildcard (`%` code 37,
`_` code 95)? -/
def noWildcards (l : List Nat) : Bool :=
  l.all (fun c => !(c == 37) && !(c == 95))

/-- Model of `column ILIKE '%query%'` on a nullable column: SQL `NULL LIKE p`
is not true, so an absent value never matches. -/
def ciContainsOpt (hay : Option String) (query : String) : Bool :=
  match hay with
  | some s => ciContains s query
  | none => false

/-- The filter of `search_records` (crud.py lines 31-40): the record matches
if the query occurs case-insensitively in title, artist, label or
catalog_number, or in the name of one of its genres (`Record.genres.any`). -/
def recordMatches (db : DB) (r : Record) (query : String) : Bool :=
  ciContains r.title query || ciContains r.artist query ||
  ciContainsOpt r.label query || ciContainsOpt r.catalog_number query ||
  db.genres.any (fun g => decide (g.id ∈ r.genres) && ciContains g.name query)

/-- Model of `crud.get_record`: first row whose primary key matches. -/
def get_record (db : DB) (record_id : Nat) : Option Record :=
  db.records.find? (fun r => r.id = record_id)

/-- Model of `crud.get_records`: offset/limit page of the records table. -/
def get_records (db : DB) (skip limit : Nat) : List Record :=
  (db.records.drop skip).take limit

/-- Shape of the dictionary returned by `crud.search_records`. -/
structure SearchResults where
  results : List Record
  total : Nat
deriving DecidableEq, Repr

/-- Model of `crud.search_records`: filter by `recordMatches`, count the
matches before pagination, then return the offset/limit page. -/
def search_records (db : DB) (query : String) (skip limit : Nat) :
    SearchResults :=
  let matched := db.records.filter (fun r => recordMatches db r query)
  { results := (matched.drop skip).take limit, total := matched.length }

/-- The genre-resolution loop shared by `create_record` (lines 54-63) and
`update_record` (lines 113-122): for each name in order, look the genre up by
exact name; if absent, insert it (making it visible to later lookups of the
same batch) ; append the found-or-created genre's id to the resolved list. -/
def resolveGenres : DB → List String → DB × List Nat
  | db, [] => (db, [])
  | db, name :: rest =>
    match db.genres.find? (fun g => g.name = name) with
    | some g =>
      let res := resolveGenres db rest
      (res.1, g.id :: res.2)
    | none =>
      let g : Genre := ⟨db.nextGenreId, name⟩
      let db1 : DB := { db with genres := db.genres ++ [g],
                                nextGenreId := db.nextGenreId + 1 }
      let res := resolveGenres db1 rest
      (res.1, g.id :: res.2)

/-- The track-insertion loop of `create_record` (lines 86-94) and
`update_record` (lines 130-137): append one `Track` row per supplied
`TrackCreate`, bound to `rid`, in input order. -/
def addTracks : DB → Nat → List TrackCreate → DB
  | db, _, [] => db
  | db, rid, t :: rest =>
    addTracks
      { db with
        tracks := db.tracks ++ [⟨db.nextTrackId, rid, t.title, t.position, t.duration⟩],
        nextTrackId := db.nextTrackId + 1 } rid rest

/-- The error raised by the database layer when a commit violates an
integrity constraint (here: the composite primary key of the
`record_genre` join table). -/
inductive DbError where
  | integrityError
deriving DecidableEq, Repr

/-- The state and record built by `crud.create_record` before the final
commit: resolve the genres, insert the record row (created_at and updated_at
default to the operation time `now`), then insert the tracks bound to the new
record id. -/
def createResult (db : DB) (record : RecordCreate) (now : Nat) : DB × Record :=
  let res := resolveGenres db record.genres
  let db1 := res.1
  let db_record : Record :=
    { id := db1.nextRecordId
      title := record.title
      artist := record.artist
      release_date := record.release_date
      label := record.label
      catalog_number := record.catalog_number
      format := record.format
      condition := record.condition
      purchase_date := record.purchase_date
      purchase_price := record.purchase_price
      album_art_url := record.album_art_url
      notes := record.notes
      discogs_url := record.discogs_url
      review_url := record.review_url
      created_at := now
      updated_at := now
      genres := res.2 }
  let db2 : DB :=
    { db1 with
      records := db1.records ++ [db_record]
      nextRecordId := db1.nextRecordId + 1 }
  let db3 := addTracks db2 db_record.id record.tracks
  (db3, db_record)

/-- Model of `crud.create_record` including its commit: the flush inserts one
`record_genre` row per entry of the resolved genre list, and the join table's
composite primary key (`models.record_genre`) makes that flush raise
`IntegrityError` exactly when the resolved list contains a duplicate id (one
row per occurrence of a duplicated input name).  On the error nothing is
committed, so no state change is observable; otherwise the built state is
committed and the created record returned. -/
def create_record (db : DB) (record : RecordCreate) (now : Nat) :
    Except DbError (DB × Record) :=
  if (resolveGenres db record.genres).2.Nodup then
    Except.ok (createResult db record now)
  else
    Except.error DbError.integrityError

/-- The genre branch of `update_record` (crud.py lines 113-122): when the
`genres` key is present, resolve the names exactly as in `create_record` and
return the replacement id list; otherwise leave the state alone. -/
def genresStage (db : DB) (o : Option (List String)) : DB × Option (List Nat) :=
  match o with
  | none => (db, none)
  | some names => ((resolveGenres db names).1, some (resolveGenres db names).2)

/-- The track branch of `update_record` (crud.py lines 124-137): when the
`tracks` key is present, delete every track of the record and insert the
supplied list; otherwise leave the state alone. -/
def tracksStage (db : DB) (record_id : Nat) (o : Option (List TrackCreate)) : DB :=
  match o with
  | none => db
  | some ts =>
    addTracks
      { db with tracks := db.tracks.filter (fun t => t.record_id ≠ record_id) }
      record_id ts

/-- The body of `crud.update_record` after the existence check succeeded on
the fetched record `r`: genre replacement, track replacement, scalar-field
overwrite for present keys, and the `updated_at` refresh. -/
def applyUpdate (db : DB) (record_id : Nat) (u : RecordUpdate) (now : Nat)
    (r : Record) : DB × Record :=
  let gres := genresStage db u.genres
  let db1 := gres.1
  let db2 := tracksStage db1 record_id u.tracks
  let r' : Record :=
    { r with
      title := u.title.getD r.title
      artist := u.artist.getD r.artist
      release_date := u.release_date.getD r.release_date
      label := u.label.getD r.label
      catalog_number := u.catalog_number.getD r.catalog_number
      format := u.format.getD r.format
      condition := u.condition.getD r.condition
      purchase_date := u.purchase_date.getD r.purchase_date
      purchase_price := u.purchase_price.getD r.purchase_price
      album_art_url := u.album_art_url.getD r.album_art_url
      notes := u.notes.getD r.notes
      discogs_url := u.discogs_url.getD r.discogs_url
      review_url := u.review_url.getD r.review_url
      genres := gres.2.getD r.genres
      updated_at := now }
  let db3 : DB :=
    { db2 with records := db2.records.map (fun x => if x.id = record_id then r' else x) }
  (db3, r')

/-- Does the commit of an update pass the join table's composite primary key?
When the `genres` key is present, the commit inserts one `record_genre` row
per entry of the resolved replacement list, so it raises `IntegrityError`
exactly when that list has a duplicate id; when the key is absent no
membership row is touched and the commit succeeds. -/
def genresOk (db : DB) (o : Option (List String)) : Bool :=
  match o with
  | none => true
  | some names => decide (resolveGenres db names).2.Nodup

/-- Model of `crud.update_record` including its commit: `.ok none` when the
id is absent (returned before anything is touched); otherwise replace the
genre list if the `genres` key is present, delete-and-reinsert the tracks if
the `tracks` key is present, overwrite exactly the present scalar fields, and
refresh `updated_at` — but the commit raises `IntegrityError` (and nothing is
committed, so no state change is observable) when the resolved replacement
genre list contains a duplicate. -/
def update_record (db : DB) (record_id : Nat) (u : RecordUpdate) (now : Nat) :
    Except DbError (Option (DB × Record)) :=
  match get_record db record_id with
  | none => Except.ok none
  | some r =>
    if genresOk db u.genres then
      Except.ok (some (applyUpdate db record_id u now r))
    else
      Except.error DbError.integrityError

/-- The state after `crud.delete_record` removed an existing record: the
record row goes, every track bound to it goes (the `all, delete-orphan`
cascade of `models.Record.tracks`), and with the row go its membership
edges; the genre table is untouched. -/
def applyDelete (db : DB) (record_id : Nat) : DB :=
  { db with records := db.records.filter (fun r => r.id ≠ record_id),
            tracks := db.tracks.filter (fun t => t.record_id ≠ record_id) }

/-- Model of `crud.delete_record`: `false` and no change when the id is
absent; otherwise remove the record and cascade. -/
def delete_record (db : DB) (record_id : Nat) : DB × Bool :=
  match get_record db record_id with
  | none => (db, false)
  | some _ => (applyDelete db record_id, true)

/-- Model of `crud.get_genres`. -/
def get_genres (db : DB) (skip limit : Nat) : List Genre :=
  (db.genres.drop skip).take limit

/-- Model of `crud.get_genre_by_name`. -/
def get_genre_by_name (db : DB) (name : String) : Option Genre :=
  db.genres.find? (fun g => g.name = name)

/-- The content of the `record_genre` join table derived from the per-record
relationship lists: one (record_id, genre_id) pair per membership edge. -/
def genreEdges (db : DB) : List (Nat × Nat) :=
  db.records.flatMap (fun r => r.genres.map (fun g => (r.id, g)))

/-- The tracks of one record, in track-table (insertion) order: model of the
`Record.tracks` relationship. -/
def recordTracks (db : DB) (rid : Nat) : List Track :=
  db.tracks.filter (fun t => t.record_id = rid)

/-- The observable content of a `Track` row apart from its generated id. -/
def trackData (t : Track) : String × Option String × Option String :=
  (t.title, t.position, t.duration)

/-- The content of a `TrackCreate` input. -/
def trackCreateData (t : TrackCreate) : String × Option String × Option String :=
  (t.title, t.position, t.duration)

/-- Well-formedness of a database state, maintained by the autoincrement
primary keys and the foreign-key constraint of `tracks.record_id`: every
stored id is below its table's counter, and record ids and genre ids are
distinct. -/
def DB.wf (db : DB) : Bool :=
  db.records.all (fun r => r.id < db.nextRecordId) &&
  db.tracks.all (fun t => t.record_id < db.nextRecordId) &&
  db.genres.all (fun g => g.id < db.nextGenreId) &&
  (db.records.map (fun r => r.id)).Nodup &&
  (db.genres.map (fun g => g.id)).Nodup

/-- The empty database. -/
def DB.empty : DB := ⟨[], [], [], 0, 0, 0⟩

/-- The track rows produced by the track-insertion loop, starting from track
id `i`, bound to record `rid`, in input order. -/
def newTracks : Nat → Nat → List TrackCreate → List Track
  | _, _, [] => []
  | i, rid, t :: rest =>
    ⟨i, rid, t.title, t.position, t.duration⟩ :: newTracks (i + 1) rid rest

/-- Occurrence of `q` in `s` as a case-insensitive contiguous substring,
stated the way the spec reads ("the query appears as a case-insensitive
substring of the field"). -/
def CiSubstr (q s : String) : Prop :=
  ∃ l t, lowerChars s = l ++ lowerChars q ++ t

/-- The spec's search matching rule, written from the spec text: a record
matches iff the query occurs case-insensitively in title, artist, label, or
catalog_number, or in the name of at least one associated genre. -/
def SpecMatch (db : DB) (r : Record) (q : String) : Prop :=
  CiSubstr q r.title ∨ CiSubstr q r.artist ∨
  (∃ s, r.label = some s ∧ CiSubstr q s) ∨
  (∃ s, r.catalog_number = some s ∧ CiSubstr q s) ∨
  ∃ g, g ∈ db.genres ∧ g.id ∈ r.genres ∧ CiSubstr q g.name

/-- Boolean decision procedure for `SpecMatch`, built from the literal
substring tester `hasSub`; used only to evaluate the spec's matching rule at
concrete inputs. -/
def specMatchB (db : DB) (r : Record) (q : String) : Bool :=
  hasSub (lowerChars q) (lowerChars r.title) ||
  hasSub (lowerChars q) (lowerChars r.artist) ||
  (match r.label with
   | some s => hasSub (lowerChars q) (lowerChars s)
   | none => false) ||
  (match r.catalog_number with
   | some s => hasSub (lowerChars q) (lowerChars s)
   | none => false) ||
  db.genres.any (fun g => decide (g.id ∈ r.genres) &&
    hasSub (lowerChars q) (lowerChars g.name))

/-- Concrete create input used by the closed instance theorems: two genres
and two ordered tracks. -/
def inpA : RecordCreate :=
  { title := "Test Album", artist := "Test Artist", release_date := some 100,
    label := some "Lbl", catalog_number := some "CAT-1",
    format := some "Vinyl", condition := some "Mint", purchase_date := none,
    purchase_price := some 10, album_art_url := none, notes := none,
    discogs_url := none, review_url := none, genres := ["Rock", "Pop"],
    tracks := [⟨"Track 1", some "A1", none⟩, ⟨"Track 2", some "A2", none⟩] }

/-- Concrete create input sharing the genre `"Rock"` with `inpA`. -/
def inpB : RecordCreate :=
  { title := "Second", artist := "Other", release_date := none, label := none,
    catalog_number := none, format := none, condition := none,
    purchase_date := none, purchase_price := none, album_art_url := none,
    notes := none, discogs_url := none, review_url := none,
    genres := ["Rock"], tracks := [⟨"B1", none, none⟩] }

/-- Concrete create input with a duplicated genre name. -/
def inpDup : RecordCreate :=
  { title := "Dup", artist := "D", release_date := none, label := none,
    catalog_number := none, format := none, condition := none,
    purchase_date := none, purchase_price := none, album_art_url := none,
    notes := none, discogs_url := none, review_url := none,
    genres := ["Rock", "Rock"], tracks := [] }

/-- Concrete create input that the spec calls invalid: empty title and a
negative purchase price. -/
def inpBad : RecordCreate :=
  { title := "", artist := "A", release_date := none, label := none,
    catalog_number := none, format := none, condition := none,
    purchase_date := none, purchase_price := some (-1), album_art_url := none,
    notes := none, discogs_url := none, review_url := none, genres := [],
    tracks := [] }

/-- State with one record (id 0, genres Rock/Pop, two tracks). -/
def dbA : DB := (createResult DB.empty inpA 1).1

/-- State with two records (ids 0 and 1) sharing the genre `"Rock"`. -/
def dbB : DB := (createResult dbA inpB 2).1

/-- Concrete partial update carrying only a `genres` key. -/
def updG : RecordUpdate := { emptyUpdate with genres := some ["Jazz"] }

/-- Concrete partial update carrying only a `tracks` key. -/
def updT : RecordUpdate := { emptyUpdate with tracks := some [⟨"N1", some "C1", none⟩] }

/-- Concrete partial update carrying only a `title` key. -/
def updTitle : RecordUpdate := { emptyUpdate with title := some "Renamed" }

/-- Concrete partial update whose `genres` key carries a duplicated name. -/
def updGG : RecordUpdate := { emptyUpdate with genres := some ["Jazz", "Jazz"] }

/-- Concrete partial update carrying a `tracks` key together with a
duplicated genre name. -/
def updTG : RecordUpdate :=
  { emptyUpdate with tracks := some [⟨"N1", some "C1", none⟩],
                     genres := some ["Jazz", "Jazz"] }

/-- Concrete partial update carrying a `title` key together with a duplicated
genre name. -/
def updTD : RecordUpdate :=
  { emptyUpdate with title := some "Renamed", genres := some ["Rock", "Rock"] }

/-- The record created by `inpA` (id 0 in `dbA`). -/
def rA : Record := (createResult DB.empty inpA 1).2

lemma chStarts_iff (n : List Nat) : ∀ h : List Nat,
    chStarts n h = true ↔ ∃ t, h = n ++ t := by
  induction n with
  | nil => intro h; simp [chStarts]
  | cons a as ih =>
    intro h
    cases h with
    | nil => simp [chStarts]
    | cons b bs =>
      simp only [chStarts, Bool.and_eq_true, beq_iff_eq, ih, List.cons_append,
        List.cons.injEq]
      constructor
      · rintro ⟨rfl, t, rfl⟩
        exact ⟨t, rfl, rfl⟩
      · rintro ⟨t, rfl, rfl⟩
        exact ⟨rfl, t, rfl⟩

lemma hasSub_iff (n : List Nat) : ∀ h : List Nat,
    hasSub n h = true ↔ ∃ l t, h = l ++ n ++ t := by
  intro h
  induction h with
  | nil =>
    simp only [hasSub, chStarts_iff]
    constructor
    · rintro ⟨t, ht⟩
      exact ⟨[], t, by simpa using ht⟩
    · rintro ⟨l, t, ht⟩
      rcases List.append_eq_nil.1 ht.symm with ⟨h1, h2⟩
      rcases List.append_eq_nil.1 h1 with ⟨rfl, rfl⟩
      exact ⟨[], by simp⟩
  | cons b bs ih =>
    simp only [hasSub, Bool.or_eq_true, chStarts_iff, ih]
    constructor
    · rintro (⟨t, ht⟩ | ⟨l, t, rfl⟩)
      · exact ⟨[], t, by simpa using ht⟩
      · exact ⟨b :: l, t, rfl⟩
    · rintro ⟨l, t, ht⟩
      cases l with
      | nil => exact Or.inl ⟨t, by simpa using ht⟩
      | cons c l' =>
        rcases List.cons.injEq .. ▸ ht with ⟨rfl, h2⟩
        exact Or.inr ⟨l', t, h2⟩

lemma likeAux_pct_cons (f : Nat) (ps : List Nat) (c : Nat) (s' : List Nat) :
    likeAux (f + 1) (37 :: ps) (c :: s')
      = (likeAux f ps (c :: s') || likeAux f (37 :: ps) s') := rfl

lemma likeAux_pct_nil_step (f : Nat) (ps : List Nat) :
    likeAux (f + 1) (37 :: ps) [] = (likeAux f ps [] || false) := rfl

lemma likeAux_chr_cons (f p : Nat) (hp : ¬p = 37) (ps : List Nat) (c : Nat)
    (s' : List Nat) :
    likeAux (f + 1) (p :: ps) (c :: s')
      = (((p == 95) || (p == c)) && likeAux f ps s') := by
  show (if p = 37 then _ else _) = _
  rw [if_neg hp]

lemma likeAux_chr_nil (f p : Nat) (hp : ¬p = 37) (ps : List Nat) :
    likeAux (f + 1) (p :: ps) [] = false := by
  show (if p = 37 then _ else _) = _
  rw [if_neg hp]

lemma likeAux_nil_pat (fuel : Nat) (s : List Nat) :
    likeAux fuel [] s = s.isEmpty := by
  cases fuel <;> rfl

lemma likeAux_pct_nil : ∀ (s : List Nat) (fuel : Nat), s.length + 1 ≤ fuel →
    likeAux fuel [37] s = true := by
  intro s
  induction s with
  | nil =>
    intro fuel hf
    cases fuel with
    | zero => omega
    | succ f =>
      rw [likeAux_pct_nil_step, likeAux_nil_pat, Bool.or_false]
      rfl
  | cons c s' ih =>
    intro fuel hf
    cases fuel with
    | zero => omega
    | succ f =>
      have hs : s'.length + 1 ≤ f := by
        simp only [List.length_cons] at hf
        omega
      rw [likeAux_pct_cons, ih f hs, Bool.or_true]

lemma likeAux_lit (q : List Nat) (hq : noWildcards q = true) :
    ∀ (s : List Nat) (fuel : Nat), q.length + s.length + 1 ≤ fuel →
    (likeAux fuel (q ++ [37]) s = true ↔ ∃ t, s = q ++ t) := by
  induction q with
  | nil =>
    intro s fuel hf
    simp only [List.nil_append]
    constructor
    · intro _
      exact ⟨s, rfl⟩
    · intro _
      exact likeAux_pct_nil s fuel (by simpa using hf)
  | cons a q' ih =>
    intro s fuel hf
    have ha : ¬(a = 37) ∧ ¬(a = 95) := by
      have h := List.all_eq_true.1 hq a (List.mem_cons_self a q')
      simp only [Bool.and_eq_true, Bool.not_eq_true', beq_eq_false_iff_ne] at h
      exact ⟨h.1, h.2⟩
    have hq' : noWildcards q' = true := by
      simp only [noWildcards, List.all_cons, Bool.and_eq_true] at hq
      exact hq.2
    cases fuel with
    | zero => omega
    | succ f =>
      cases s with
      | nil =>
        rw [List.cons_append, likeAux_chr_nil f a ha.1]
        simp
      | cons c s' =>
        have hf' : q'.length + s'.length + 1 ≤ f := by
          simp only [List.length_cons] at hf
          omega
        rw [List.cons_append, likeAux_chr_cons f a ha.1]
        simp only [Bool.and_eq_true, Bool.or_eq_true, beq_iff_eq,
          ih hq' s' f hf', List.cons.injEq]
        constructor
        · rintro ⟨(h95 | h), t, rfl⟩
          · exact absurd h95 ha.2
          · exact ⟨t, by rw [h, List.cons_append]⟩
        · rintro ⟨t, ht⟩
          rw [List.cons_append] at ht
          injection ht with h1 h2
          exact ⟨Or.inr h1.symm, t, h2⟩

lemma likeAux_pct_lit (q : List Nat) (hq : noWildcards q = true) :
    ∀ (s : List Nat) (fuel : Nat), q.length + s.length + 2 ≤ fuel →
    (likeAux fuel (37 :: (q ++ [37])) s = true ↔ ∃ l t, s = l ++ q ++ t) := by
  intro s
  induction s with
  | nil =>
    intro fuel hf
    cases fuel with
    | zero => omega
    | succ f =>
      rw [likeAux_pct_nil_step, Bool.or_false,
        likeAux_lit q hq [] f (by simpa using hf)]
      constructor
      · rintro ⟨t, ht⟩
        exact ⟨[], t, by simpa using ht⟩
      · rintro ⟨l, t, hlt⟩
        rcases List.append_eq_nil.1 hlt.symm with ⟨h1, h2⟩
        rcases List.append_eq_nil.1 h1 with ⟨rfl, rfl⟩
        exact ⟨[], by simp⟩
  | cons c s' ih =>
    intro fuel hf
    cases fuel with
    | zero => omega
    | succ f =>
      have hf1 : q.length + (c :: s').length + 1 ≤ f := by
        simp only [List.length_cons] at hf ⊢
        omega
      have hf2 : q.length + s'.length + 2 ≤ f := by
        simp only [List.length_cons] at hf
        omega
      rw [likeAux_pct_cons, Bool.or_eq_true,
        likeAux_lit q hq (c :: s') f hf1, ih f hf2]
      constructor
      · rintro (⟨t, ht⟩ | ⟨l, t, rfl⟩)
        · exact ⟨[], t, by simpa using ht⟩
        · exact ⟨c :: l, t, rfl⟩
      · rintro ⟨l, t, hlt⟩
        cases l with
        | nil => exact Or.inl ⟨t, by simpa using hlt⟩
        | cons d l' =>
          rcases List.cons.injEq .. ▸ hlt with ⟨rfl, h2⟩
          exact Or.inr ⟨l', t, h2⟩

lemma ciContains_iff_noWild (hay q : String)
    (hq : noWildcards (lowerChars q) = true) :
    ciContains hay q = true ↔ CiSubstr q hay := by
  unfold ciContains likeMatch CiSubstr
  exact likeAux_pct_lit (lowerChars q) hq (lowerChars hay) _
    (by simp [List.length_append]; omega)

lemma ciContainsOpt_iff_noWild (o : Option String) (q : String)
    (hq : noWildcards (lowerChars q) = true) :
    ciContainsOpt o q = true ↔ ∃ s, o = some s ∧ CiSubstr q s := by
  cases o with
  | none => simp [ciContainsOpt]
  | some s => simp [ciContainsOpt, ciContains_iff_noWild s q hq]

lemma recordMatches_iff (db : DB) (r : Record) (q : String)
    (hq : noWildcards (lowerChars q) = true) :
    recordMatches db r q = true ↔ SpecMatch db r q := by
  have hci : ∀ hay, ciContains hay q = true ↔ CiSubstr q hay :=
    fun hay => ciContains_iff_noWild hay q hq
  have hco : ∀ o, ciContainsOpt o q = true ↔ ∃ s, o = some s ∧ CiSubstr q s :=
    fun o => ciContainsOpt_iff_noWild o q hq
  simp only [recordMatches, SpecMatch, Bool.or_eq_true, Bool.and_eq_true,
    hci, hco, List.any_eq_true, decide_eq_true_eq, and_assoc, or_assoc]

lemma hasSub_iff_ciSubstr (q s : String) :
    hasSub (lowerChars q) (lowerChars s) = true ↔ CiSubstr q s := by
  simp [hasSub_iff, CiSubstr]

lemma specMatchB_iff (db : DB) (r : Record) (q : String) :
    specMatchB db r q = true ↔ SpecMatch db r q := by
  have hopt : ∀ o : Option String,
      (match o with
       | some s => hasSub (lowerChars q) (lowerChars s)
       | none => false) = true ↔ ∃ s, o = some s ∧ CiSubstr q s := by
    intro o
    cases o <;> simp [hasSub_iff_ciSubstr]
  simp only [specMatchB, SpecMatch, Bool.or_eq_true, Bool.and_eq_true,
    hasSub_iff_ciSubstr, hopt, List.any_eq_true, decide_eq_true_eq,
    and_assoc, or_assoc]

lemma resolveGenres_records (names : List String) : ∀ db : DB,
    (resolveGenres db names).1.records = db.records := by
  induction names with
  | nil => intro db; rfl
  | cons name rest ih =>
    intro db
    simp only [resolveGenres]
    cases db.genres.find? (fun g => g.name = name) <;> simp [ih]

lemma resolveGenres_tracks (names : List String) : ∀ db : DB,
    (resolveGenres db names).1.tracks = db.tracks := by
  induction names with
  | nil => intro db; rfl
  | cons name rest ih =>
    intro db
    simp only [resolveGenres]
    cases db.genres.find? (fun g => g.name = name) <;> simp [ih]

lemma resolveGenres_nextRecordId (names : List String) : ∀ db : DB,
    (resolveGenres db names).1.nextRecordId = db.nextRecordId := by
  induction names with
  | nil => intro db; rfl
  | cons name rest ih =>
    intro db
    simp only [resolveGenres]
    cases db.genres.find? (fun g => g.name = name) <;> simp [ih]

lemma resolveGenres_nextTrackId (names : List String) : ∀ db : DB,
    (resolveGenres db names).1.nextTrackId = db.nextTrackId := by
  induction names with
  | nil => intro db; rfl
  | cons name rest ih =>
    intro db
    simp only [resolveGenres]
    cases db.genres.find? (fun g => g.name = name) <;> simp [ih]

lemma resolveGenres_genres_mono (names : List String) : ∀ (db : DB) (g : Genre),
    g ∈ db.genres → g ∈ (resolveGenres db names).1.genres := by
  induction names with
  | nil => intro db g hg; exact hg
  | cons name rest ih =>
    intro db g hg
    cases hf : db.genres.find? (fun x => x.name = name) with
    | some g0 =>
      simp only [resolveGenres, hf]
      exact ih db g hg
    | none =>
      simp only [resolveGenres, hf]
      exact ih _ g (List.mem_append_left _ hg)

lemma insertGenre_bound (db : DB) (name : String)
    (h : ∀ g ∈ db.genres, g.id < db.nextGenreId) :
    ∀ g ∈ db.genres ++ [(⟨db.nextGenreId, name⟩ : Genre)],
      g.id < db.nextGenreId + 1 := by
  intro g hg
  rcases List.mem_append.1 hg with hg | hg
  · exact Nat.lt_succ_of_lt (h g hg)
  · rw [List.mem_singleton.1 hg]
    exact Nat.lt_succ_self _

lemma insertGenre_nodup (db : DB) (name : String)
    (h : ∀ g ∈ db.genres, g.id < db.nextGenreId)
    (hn : (db.genres.map (fun g => g.id)).Nodup) :
    ((db.genres ++ [(⟨db.nextGenreId, name⟩ : Genre)]).map
      (fun g => g.id)).Nodup := by
  rw [List.map_append, List.nodup_append]
  refine ⟨hn, List.nodup_singleton _, ?_⟩
  intro a ha hb
  rcases List.mem_map.1 ha with ⟨g, hg, rfl⟩
  rw [List.map_singleton, List.mem_singleton] at hb
  exact absurd hb (Nat.ne_of_lt (h g hg))

lemma resolveGenres_table_bound (names : List String) : ∀ db : DB,
    (∀ g ∈ db.genres, g.id < db.nextGenreId) →
    ∀ g ∈ (resolveGenres db names).1.genres,
      g.id < (resolveGenres db names).1.nextGenreId := by
  induction names with
  | nil => intro db h; exact h
  | cons name rest ih =>
    intro db h
    cases hf : db.genres.find? (fun x => x.name = name) with
    | some g0 =>
      simp only [resolveGenres, hf]
      exact ih db h
    | none =>
      simp only [resolveGenres, hf]
      exact ih _ (insertGenre_bound db name h)

lemma resolveGenres_table_nodup (names : List String) : ∀ db : DB,
    (∀ g ∈ db.genres, g.id < db.nextGenreId) →
    (db.genres.map (fun g => g.id)).Nodup →
    ((resolveGenres db names).1.genres.map (fun g => g.id)).Nodup := by
  induction names with
  | nil => intro db _ hn; exact hn
  | cons name rest ih =>
    intro db h hn
    cases hf : db.genres.find? (fun x => x.name = name) with
    | some g0 =>
      simp only [resolveGenres, hf]
      exact ih db h hn
    | none =>
      simp only [resolveGenres, hf]
      exact ih _ (insertGenre_bound db name h) (insertGenre_nodup db name h hn)

lemma resolveGenres_mem_ids (names : List String) : ∀ (db : DB) (i : Nat),
    i ∈ (resolveGenres db names).2 →
    ∃ g, g ∈ (resolveGenres db names).1.genres ∧ g.id = i ∧ g.name ∈ names := by
  induction names with
  | nil =>
    intro db i hi
    simp [resolveGenres] at hi
  | cons name rest ih =>
    intro db i hi
    cases hf : db.genres.find? (fun x => x.name = name) with
    | some g0 =>
      simp only [resolveGenres, hf] at hi ⊢
      rcases List.mem_cons.1 hi with rfl | hi'
      · refine ⟨g0, resolveGenres_genres_mono rest db g0
          (List.mem_of_find?_eq_some hf), rfl, ?_⟩
        have hname : g0.name = name := by
          have := List.find?_some hf
          simpa using this
        rw [hname]
        exact List.mem_cons_self _ _
      · rcases ih db i hi' with ⟨g, hg, hgid, hgname⟩
        exact ⟨g, hg, hgid, List.mem_cons_of_mem _ hgname⟩
    | none =>
      simp only [resolveGenres, hf] at hi ⊢
      rcases List.mem_cons.1 hi with rfl | hi'
      · exact ⟨⟨db.nextGenreId, name⟩,
          resolveGenres_genres_mono rest _ _
            (List.mem_append_right _ (List.mem_singleton.2 rfl)),
          rfl, List.mem_cons_self _ _⟩
      · rcases ih _ i hi' with ⟨g, hg, hgid, hgname⟩
        exact ⟨g, hg, hgid, List.mem_cons_of_mem _ hgname⟩

lemma resolveGenres_fresh_not_mem (rest : List String) (db1 : DB) (g0 : Genre)
    (hb1 : ∀ g ∈ db1.genres, g.id < db1.nextGenreId)
    (hn1 : (db1.genres.map (fun g => g.id)).Nodup)
    (hg0mem : g0 ∈ db1.genres)
    (hgname : g0.name ∉ rest) :
    g0.id ∉ (resolveGenres db1 rest).2 := by
  intro hmem
  rcases resolveGenres_mem_ids rest db1 g0.id hmem with ⟨g', hg', hgid, hgn⟩
  have hg0 : g0 ∈ (resolveGenres db1 rest).1.genres :=
    resolveGenres_genres_mono rest db1 g0 hg0mem
  have htn := resolveGenres_table_nodup rest db1 hb1 hn1
  have heq : g' = g0 := List.inj_on_of_nodup_map htn hg' hg0 hgid
  rw [heq] at hgn
  exact hgname hgn

lemma resolveGenres_ids_nodup (names : List String) : ∀ db : DB,
    (∀ g ∈ db.genres, g.id < db.nextGenreId) →
    (db.genres.map (fun g => g.id)).Nodup →
    names.Nodup →
    (resolveGenres db names).2.Nodup := by
  induction names with
  | nil =>
    intro db _ _ _
    simp [resolveGenres]
  | cons name rest ih =>
    intro db hb hn hnd
    rcases List.nodup_cons.1 hnd with ⟨hname, hrest⟩
    cases hf : db.genres.find? (fun x => x.name = name) with
    | some g0 =>
      simp only [resolveGenres, hf]
      rw [List.nodup_cons]
      refine ⟨?_, ih db hb hn hrest⟩
      have hg0name : g0.name = name := by
        have := List.find?_some hf
        simpa using this
      exact resolveGenres_fresh_not_mem rest db g0 hb hn
        (List.mem_of_find?_eq_some hf) (by rw [hg0name]; exact hname)
    | none =>
      simp only [resolveGenres, hf]
      rw [List.nodup_cons]
      have hb1 := insertGenre_bound db name hb
      have hn1 := insertGenre_nodup db name hb hn
      refine ⟨?_, ih _ hb1 hn1 hrest⟩
      exact resolveGenres_fresh_not_mem rest _ ⟨db.nextGenreId, name⟩ hb1 hn1
        (List.mem_append_right _ (List.mem_singleton.2 rfl)) hname

lemma addTracks_records (rid : Nat) (ts : List TrackCreate) : ∀ db : DB,
    (addTracks db rid ts).records = db.records := by
  induction ts with
  | nil => intro db; rfl
  | cons t rest ih => intro db; simp [addTracks, ih]

lemma addTracks_genres (rid : Nat) (ts : List TrackCreate) : ∀ db : DB,
    (addTracks db rid ts).genres = db.genres := by
  induction ts with
  | nil => intro db; rfl
  | cons t rest ih => intro db; simp [addTracks, ih]

lemma addTracks_tracks (rid : Nat) (ts : List TrackCreate) : ∀ db : DB,
    (addTracks db rid ts).tracks = db.tracks ++ newTracks db.nextTrackId rid ts := by
  induction ts with
  | nil => intro db; simp [addTracks, newTracks]
  | cons t rest ih => intro db; simp [addTracks, newTracks, ih]

lemma newTracks_recordId (rid : Nat) (ts : List TrackCreate) : ∀ i : Nat,
    ∀ t ∈ newTracks i rid ts, t.record_id = rid := by
  induction ts with
  | nil => intro i t ht; simp [newTracks] at ht
  | cons c rest ih =>
    intro i t ht
    rcases List.mem_cons.1 ht with rfl | h
    · rfl
    · exact ih (i + 1) t h

lemma newTracks_map (rid : Nat) (ts : List TrackCreate) : ∀ i : Nat,
    (newTracks i rid ts).map trackData = ts.map trackCreateData := by
  induction ts with
  | nil => intro i; rfl
  | cons c rest ih =>
    intro i
    simp [newTracks, trackData, trackCreateData, ih]

lemma newTracks_length (rid : Nat) (ts : List TrackCreate) : ∀ i : Nat,
    (newTracks i rid ts).length = ts.length := by
  induction ts with
  | nil => intro i; rfl
  | cons c rest ih => intro i; simp [newTracks, ih]

lemma genresStage_records (db : DB) (o : Option (List String)) :
    (genresStage db o).1.records = db.records := by
  cases o <;> simp [genresStage, resolveGenres_records]

lemma genresStage_tracks (db : DB) (o : Option (List String)) :
    (genresStage db o).1.tracks = db.tracks := by
  cases o <;> simp [genresStage, resolveGenres_tracks]

lemma tracksStage_records (db : DB) (rid : Nat) (o : Option (List TrackCreate)) :
    (tracksStage db rid o).records = db.records := by
  cases o <;> simp [tracksStage, addTracks_records]

lemma tracksStage_genres (db : DB) (rid : Nat) (o : Option (List TrackCreate)) :
    (tracksStage db rid o).genres = db.genres := by
  cases o <;> simp [tracksStage, addTracks_genres]

lemma update_record_of_none (db : DB) (id : Nat) (u : RecordUpdate) (now : Nat)
    (h : get_record db id = none) : update_record db id u now = Except.ok none := by
  unfold update_record
  rw [h]

lemma update_record_ok (db : DB) (id : Nat) (u : RecordUpdate) (now : Nat)
    (r : Record) (h : get_record db id = some r)
    (hok : genresOk db u.genres = true) :
    update_record db id u now = Except.ok (some (applyUpdate db id u now r)) := by
  unfold update_record
  rw [h]
  simp [hok]

lemma update_record_err (db : DB) (id : Nat) (u : RecordUpdate) (now : Nat)
    (r : Record) (h : get_record db id = some r)
    (hok : genresOk db u.genres = false) :
    update_record db id u now = Except.error DbError.integrityError := by
  unfold update_record
  rw [h]
  simp [hok]

lemma delete_record_of_none (db : DB) (id : Nat)
    (h : get_record db id = none) : delete_record db id = (db, false) := by
  unfold delete_record
  rw [h]

lemma delete_record_of_some (db : DB) (id : Nat) (r : Record)
    (h : get_record db id = some r) :
    delete_record db id = (applyDelete db id, true) := by
  unfold delete_record
  rw [h]

lemma find?_append_none {α : Type} (p : α → Bool) (l₁ l₂ : List α)
    (h : l₁.find? p = none) : (l₁ ++ l₂).find? p = l₂.find? p := by
  rw [List.find?_append, h, Option.none_or]

lemma find?_map_replace (rid : Nat) (r' : Record) (hr : r'.id = rid) :
    ∀ l : List Record, (∃ x ∈ l, x.id = rid) →
    (l.map (fun x => if x.id = rid then r' else x)).find? (fun x => x.id = rid)
      = some r' := by
  intro l
  induction l with
  | nil => rintro ⟨x, hx, -⟩; simp at hx
  | cons a as ih =>
    rintro ⟨x, hx, hxid⟩
    by_cases ha : a.id = rid
    · rw [List.map_cons, if_pos ha, List.find?_cons_of_pos _ (by simp [hr])]
    · rcases List.mem_cons.1 hx with rfl | hx'
      · exact absurd hxid ha
      · rw [List.map_cons, if_neg ha, List.find?_cons_of_neg _ (by simp [ha])]
        exact ih ⟨x, hx', hxid⟩

lemma mem_map_replace_self (rid : Nat) (r' : Record) (l : List Record)
    (x : Record) (hx : x ∈ l) (hid : x.id = rid) :
    r' ∈ l.map (fun y => if y.id = rid then r' else y) :=
  List.mem_map.2 ⟨x, hx, by simp [hid]⟩

lemma map_replace_eq_of_id (rid : Nat) (r' : Record) (l : List Record) :
    ∀ x ∈ l.map (fun y => if y.id = rid then r' else y), x.id = rid →
      x = r' := by
  intro x hx hid
  rcases List.mem_map.1 hx with ⟨y, hy, rfl⟩
  by_cases h : y.id = rid
  · simp [h]
  · rw [if_neg h] at hid ⊢
    exact absurd hid h

lemma mem_genreEdges_iff (db : DB) (rid g : Nat) :
    (rid, g) ∈ genreEdges db ↔ ∃ x ∈ db.records, x.id = rid ∧ g ∈ x.genres := by
  simp only [genreEdges, List.mem_flatMap, List.mem_map, Prod.mk.injEq]
  constructor
  · rintro ⟨x, hx, y, hy, hxid, rfl⟩
    exact ⟨x, hx, hxid, hy⟩
  · rintro ⟨x, hx, hxid, hg⟩
    exact ⟨x, hx, g, hg, hxid, rfl⟩

lemma wf_records_lt (db : DB) (h : db.wf = true) :
    ∀ r ∈ db.records, r.id < db.nextRecordId := by
  simp only [DB.wf, Bool.and_eq_true, List.all_eq_true, decide_eq_true_eq] at h
  exact h.1.1.1.1

lemma wf_tracks_lt (db : DB) (h : db.wf = true) :
    ∀ t ∈ db.tracks, t.record_id < db.nextRecordId := by
  simp only [DB.wf, Bool.and_eq_true, List.all_eq_true, decide_eq_true_eq] at h
  exact h.1.1.1.2

lemma wf_genres_lt (db : DB) (h : db.wf = true) :
    ∀ g ∈ db.genres, g.id < db.nextGenreId := by
  simp only [DB.wf, Bool.and_eq_true, List.all_eq_true, decide_eq_true_eq] at h
  exact h.1.1.2

lemma wf_nodup (db : DB) (h : db.wf = true) :
    (db.records.map (fun r => r.id)).Nodup := by
  simp only [DB.wf, Bool.and_eq_true, List.all_eq_true, decide_eq_true_eq] at h
  exact h.1.2

lemma wf_genreIds_nodup (db : DB) (h : db.wf = true) :
    (db.genres.map (fun g => g.id)).Nodup := by
  simp only [DB.wf, Bool.and_eq_true, List.all_eq_true, decide_eq_true_eq] at h
  exact h.2

lemma resolved_nodup_of_wf (db : DB) (names : List String)
    (hwf : db.wf = true) (hnd : names.Nodup) :
    (resolveGenres db names).2.Nodup :=
  resolveGenres_ids_nodup names db (wf_genres_lt db hwf)
    (wf_genreIds_nodup db hwf) hnd

lemma genresOk_of_nodup (db : DB) (o : Option (List String))
    (hwf : db.wf = true) (h : ∀ names, o = some names → names.Nodup) :
    genresOk db o = true := by
  cases o with
  | none => rfl
  | some names =>
    simp only [genresOk, decide_eq_true_eq]
    exact resolved_nodup_of_wf db names hwf (h names rfl)

lemma create_record_of_nodup (db : DB) (input : RecordCreate) (now : Nat)
    (hwf : db.wf = true) (hnd : input.genres.Nodup) :
    create_record db input now = Except.ok (createResult db input now) := by
  unfold create_record
  rw [if_pos (resolved_nodup_of_wf db input.genres hwf hnd)]

lemma hasSub_nil : ∀ h : List Nat, hasSub [] h = true := by
  intro h
  cases h <;> simp [hasSub, chStarts]

lemma likeAux_pct_pct : ∀ (s : List Nat) (fuel : Nat), s.length + 2 ≤ fuel →
    likeAux fuel [37, 37] s = true := by
  intro s fuel hf
  cases fuel with
  | zero => omega
  | succ f =>
    cases s with
    | nil =>
      rw [likeAux_pct_nil_step, likeAux_pct_nil [] f (by omega), Bool.true_or]
    | cons c s' =>
      rw [likeAux_pct_cons, likeAux_pct_nil (c :: s') f (by
        simp only [List.length_cons] at hf ⊢
        omega), Bool.true_or]

lemma ciContains_empty (hay : String) : ciContains hay "" = true := by
  unfold ciContains likeMatch
  have h0 : lowerChars "" = ([] : List Nat) := rfl
  rw [h0, List.nil_append]
  exact likeAux_pct_pct (lowerChars hay) _
    (by rw [List.length_cons, List.length_cons, List.length_nil]; omega)

/-- Claim C3 counterexample: the code passes the query unescaped into the SQL
pattern `f"%{query}%"`, so a `%` in the query is a wildcard.  At query `"%"`
the search returns the only record of `dbA` (total 1) although `%` occurs as
a literal substring of none of its fields or genre names — the
literal-substring reading of the claim counts zero matches. -/
theorem search_wildcard_query_counterexample :
    (search_records dbA "%" 0 100).total = 1 ∧
    ∀ r ∈ dbA.records, ¬ SpecMatch dbA r "%" := by
  refine ⟨by decide, ?_⟩
  have hb : ∀ r ∈ dbA.records, specMatchB dbA r "%" = false := by decide
  intro r hr
  rw [← specMatchB_iff, hb r hr]
  simp

/-- Claim C3, amended to queries without SQL wildcards: for every query in
which no character is `%` or `_`, `search_records` matches exactly the
records in which the query occurs as a case-insensitive substring of title,
artist, label or catalog_number, or of an associated genre name (OR across
the fields); its `total` counts all matches before pagination, and `results`
is the offset/limit page of the matches in the same identifier order as the
records table (a sublist of it). -/
theorem search_records_correct (db : DB) (q : String) (skip limit : Nat)
    (hq : noWildcards (lowerChars q) = true) :
    (∀ r : Record, recordMatches db r q = true ↔ SpecMatch db r q) ∧
    (search_records db q skip limit).total
      = (db.records.filter (fun r => recordMatches db r q)).length ∧
    (search_records db q skip limit).results
      = ((db.records.filter (fun r => recordMatches db r q)).drop skip).take limit ∧
    (search_records db q skip limit).results.Sublist db.records := by
  refine ⟨fun r => recordMatches_iff db r q hq, rfl, rfl, ?_⟩
  exact (List.take_sublist _ _).trans
    ((List.drop_sublist _ _).trans (List.filter_sublist _))

/-- Closed instance of claim C3 at the wildcard-free query `"rock"` over the
state `dbA`. -/
theorem search_records_correct_witness :
    noWildcards (lowerChars "rock") = true ∧
    ((∀ r : Record, recordMatches dbA r "rock" = true ↔ SpecMatch dbA r "rock") ∧
    (search_records dbA "rock" 0 100).total
      = (dbA.records.filter (fun r => recordMatches dbA r "rock")).length ∧
    (search_records dbA "rock" 0 100).results
      = ((dbA.records.filter (fun r => recordMatches dbA r "rock")).drop 0).take 100 ∧
    (search_records dbA "rock" 0 100).results.Sublist dbA.records) :=
  ⟨by decide, search_records_correct dbA "rock" 0 100 (by decide)⟩

/-- Claim C10: the empty query matches every record (the code builds the SQL
pattern `'%%'`), so search returns the total number of stored records and the
offset/limit page of the whole records table. -/
theorem search_records_empty_query (db : DB) (skip limit : Nat) :
    (∀ r ∈ db.records, recordMatches db r "" = true) ∧
    search_records db "" skip limit
      = { results := get_records db skip limit, total := db.records.length } := by
  have hall : ∀ r ∈ db.records, recordMatches db r "" = true := by
    intro r hr
    simp [recordMatches, ciContains_empty]
  refine ⟨hall, ?_⟩
  simp [search_records, List.filter_eq_self.2 hall, get_records]

/-- Claim C1 counterexample: the input with genres `["Rock","Rock"]` is valid
per the spec (duplicates are to collapse), but `create_record` raises
`IntegrityError` at commit — the duplicated membership edge violates the
`record_genre` composite primary key — so no created record exists for `get`
to return. -/
theorem create_duplicate_genres_fails :
    create_record DB.empty inpDup 0 = Except.error DbError.integrityError := by
  rfl

/-- Claim C1, amended to inputs without duplicated genre names: on a
well-formed state, create succeeds, and `get_record` applied to the id of the
freshly created record returns exactly the created record (hence equal in
every field, including the resolved genre id list), its timestamps are the
creation time, and its stored track rows carry the input track data in input
order. -/
theorem create_then_get (db : DB) (input : RecordCreate) (now : Nat)
    (hwf : db.wf = true) (hnd : input.genres.Nodup) :
    create_record db input now = Except.ok (createResult db input now) ∧
    get_record (createResult db input now).1 (createResult db input now).2.id
      = some (createResult db input now).2 ∧
    (createResult db input now).2.genres = (resolveGenres db input.genres).2 ∧
    (createResult db input now).2.created_at = now ∧
    (createResult db input now).2.updated_at = now ∧
    ((recordTracks (createResult db input now).1 (createResult db input now).2.id).map trackData
      = input.tracks.map trackCreateData) := by
  have hrec := wf_records_lt db hwf
  have htr := wf_tracks_lt db hwf
  refine ⟨create_record_of_nodup db input now hwf hnd, ?_, rfl, rfl, rfl, ?_⟩
  · simp only [createResult, get_record, addTracks_records]
    rw [show ((resolveGenres db input.genres).1).records = db.records from
      resolveGenres_records _ _]
    rw [find?_append_none]
    · simp
    · rw [List.find?_eq_none]
      intro x hx
      simp only [decide_eq_true_eq, resolveGenres_nextRecordId]
      exact Nat.ne_of_lt (hrec x hx)
  · simp only [createResult, recordTracks, addTracks_tracks]
    rw [show ((resolveGenres db input.genres).1).tracks = db.tracks from
      resolveGenres_tracks _ _]
    rw [List.filter_append]
    have hold : db.tracks.filter
        (fun t => t.record_id = ((resolveGenres db input.genres).1).nextRecordId) = [] := by
      rw [List.filter_eq_nil_iff]
      intro t ht
      simp only [decide_eq_true_eq, resolveGenres_nextRecordId]
      exact Nat.ne_of_lt (htr t ht)
    rw [hold, List.nil_append]
    have hnew := newTracks_recordId ((resolveGenres db input.genres).1).nextRecordId
      input.tracks
    rw [List.filter_eq_self.2 (fun t ht => by
      simp only [decide_eq_true_eq]
      exact hnew _ t ht)]
    exact newTracks_map _ _ _

/-- Closed instance of the amended claim C1 at a concrete well-formed state
and a duplicate-free input. -/
theorem create_then_get_witness :
    DB.wf DB.empty = true ∧ inpA.genres.Nodup ∧
    (create_record DB.empty inpA 1 = Except.ok (createResult DB.empty inpA 1) ∧
    get_record (createResult DB.empty inpA 1).1 (createResult DB.empty inpA 1).2.id
      = some (createResult DB.empty inpA 1).2 ∧
    (createResult DB.empty inpA 1).2.genres = (resolveGenres DB.empty inpA.genres).2 ∧
    (createResult DB.empty inpA 1).2.created_at = 1 ∧
    (createResult DB.empty inpA 1).2.updated_at = 1 ∧
    ((recordTracks (createResult DB.empty inpA 1).1 (createResult DB.empty inpA 1).2.id).map trackData
      = inpA.tracks.map trackCreateData)) :=
  ⟨by decide, by decide, create_then_get DB.empty inpA 1 (by decide) (by decide)⟩

/-- Claim C8: on a missing id, `update_record` returns `none` (never raising
— the id check precedes every other step) and `delete_record` returns `false`
with the state unchanged; on an existing id, `delete_record` returns `true`
the first time and `false` (with no further change) the second time, and the
first delete keeps every other record. -/
theorem missing_id_is_noop (db : DB) (id : Nat) (u : RecordUpdate) (now : Nat)
    (r : Record) :
    (get_record db id = none →
      update_record db id u now = Except.ok none ∧
      delete_record db id = (db, false)) ∧
    (get_record db id = some r →
      (delete_record db id).2 = true ∧
      delete_record (delete_record db id).1 id = ((delete_record db id).1, false) ∧
      ∀ x ∈ db.records, x.id ≠ id → x ∈ (delete_record db id).1.records) := by
  constructor
  · intro h
    exact ⟨update_record_of_none db id u now h, delete_record_of_none db id h⟩
  · intro h
    rw [delete_record_of_some db id r h]
    have h2 : get_record (applyDelete db id) id = none := by
      rw [get_record, List.find?_eq_none]
      intro x hx
      rcases List.mem_filter.1 hx with ⟨-, hne⟩
      simpa using hne
    refine ⟨rfl, delete_record_of_none _ id h2, ?_⟩
    intro x hx hne
    exact List.mem_filter.2 ⟨hx, by simpa using hne⟩

/-- Closed instance of claim C8: a missing id (99) and an existing id (0) in
the concrete state `dbA`. -/
theorem missing_id_is_noop_witness :
    (get_record dbA 99 = none ∧
      (update_record dbA 99 updTitle 3 = Except.ok none ∧
       delete_record dbA 99 = (dbA, false))) ∧
    (get_record dbA 0 = some rA ∧
      ((delete_record dbA 0).2 = true ∧
       delete_record (delete_record dbA 0).1 0 = ((delete_record dbA 0).1, false) ∧
       ∀ x ∈ dbA.records, x.id ≠ 0 → x ∈ (delete_record dbA 0).1.records)) :=
  ⟨⟨by decide, (missing_id_is_noop dbA 99 updTitle 3 rA).1 (by decide)⟩,
   ⟨by decide, (missing_id_is_noop dbA 0 updTitle 3 rA).2 (by decide)⟩⟩

/-- Claim C6: deleting an existing record removes the record, all of its
tracks and all of its genre-membership edges; the genre table is unchanged,
every other record survives, and every membership edge of other records
survives; a subsequent get of the id returns `none`. -/
theorem delete_record_cascades (db : DB) (id : Nat) (r : Record)
    (h : get_record db id = some r) :
    (delete_record db id).2 = true ∧
    get_record (delete_record db id).1 id = none ∧
    recordTracks (delete_record db id).1 id = [] ∧
    (∀ p ∈ genreEdges (delete_record db id).1, p.1 ≠ id) ∧
    (delete_record db id).1.genres = db.genres ∧
    (∀ x ∈ db.records, x.id ≠ id → x ∈ (delete_record db id).1.records) ∧
    (∀ p ∈ genreEdges db, p.1 ≠ id → p ∈ genreEdges (delete_record db id).1) := by
  rw [delete_record_of_some db id r h]
  refine ⟨rfl, ?_, ?_, ?_, rfl, ?_, ?_⟩
  · rw [get_record, List.find?_eq_none]
    intro x hx
    rcases List.mem_filter.1 hx with ⟨-, hne⟩
    simpa using hne
  · rw [recordTracks, List.filter_eq_nil_iff]
    intro t ht
    rcases List.mem_filter.1 ht with ⟨-, hne⟩
    simpa using hne
  · intro p hp
    simp only [genreEdges, List.mem_flatMap] at hp
    rcases hp with ⟨x, hx, hpx⟩
    rcases List.mem_filter.1 hx with ⟨-, hne⟩
    rcases List.mem_map.1 hpx with ⟨g, -, rfl⟩
    simpa using hne
  · intro x hx hne
    exact List.mem_filter.2 ⟨hx, by simpa using hne⟩
  · intro p hp hne
    simp only [genreEdges, List.mem_flatMap] at hp
    rcases hp with ⟨x, hx, hpx⟩
    rcases List.mem_map.1 hpx with ⟨g, hg, rfl⟩
    simp only [genreEdges, List.mem_flatMap]
    refine ⟨x, List.mem_filter.2 ⟨hx, ?_⟩, List.mem_map.2 ⟨g, hg, rfl⟩⟩
    simpa using hne

/-- Closed instance of claim C6: deleting record 0 from the two-record state
`dbB` (records 0 and 1 share the genre `"Rock"`). -/
theorem delete_record_cascades_witness :
    get_record dbB 0 = some rA ∧
    ((delete_record dbB 0).2 = true ∧
    get_record (delete_record dbB 0).1 0 = none ∧
    recordTracks (delete_record dbB 0).1 0 = [] ∧
    (∀ p ∈ genreEdges (delete_record dbB 0).1, p.1 ≠ 0) ∧
    (delete_record dbB 0).1.genres = dbB.genres ∧
    (∀ x ∈ dbB.records, x.id ≠ 0 → x ∈ (delete_record dbB 0).1.records) ∧
    (∀ p ∈ genreEdges dbB, p.1 ≠ 0 → p ∈ genreEdges (delete_record dbB 0).1)) :=
  ⟨by decide, delete_record_cascades dbB 0 rA (by decide)⟩

/-- Claim C5 counterexample: an update input that carries a `tracks` key but
also a duplicated genre name is in the claim's scope, and on it the program
raises `IntegrityError` at commit — nothing is replaced and no updated record
exists. -/
theorem update_tracks_with_duplicate_genres_fails :
    updTG.tracks = some [⟨"N1", some "C1", none⟩] ∧
    update_record dbA 0 updTG 3 = Except.error DbError.integrityError := by
  exact ⟨rfl, rfl⟩

/-- Claim C5, amended to inputs whose `genres` key, if present, carries
duplicate-free names: when the update input carries a `tracks` key, the
commit succeeds, all previously stored tracks of the record are deleted and
the record's tracks are exactly the supplied list, in input order; the
resulting track count equals the input length regardless of the prior
count. -/
theorem update_replaces_tracks (db : DB) (id : Nat) (u : RecordUpdate)
    (now : Nat) (ts : List TrackCreate) (r : Record)
    (h : get_record db id = some r) (ht : u.tracks = some ts)
    (hwf : db.wf = true)
    (hgv : ∀ names, u.genres = some names → names.Nodup) :
    ∃ db' r', update_record db id u now = Except.ok (some (db', r')) ∧
      (recordTracks db' id).map trackData = ts.map trackCreateData ∧
      (recordTracks db' id).length = ts.length := by
  refine ⟨(applyUpdate db id u now r).1, (applyUpdate db id u now r).2,
    update_record_ok db id u now r h (genresOk_of_nodup db u.genres hwf hgv),
    ?_, ?_⟩
  all_goals
    have htr : recordTracks (applyUpdate db id u now r).1 id
        = newTracks ((genresStage db u.genres).1).nextTrackId id ts := by
      simp only [applyUpdate, recordTracks, ht, tracksStage]
      rw [addTracks_tracks, List.filter_append]
      have hold : (((genresStage db u.genres).1).tracks.filter
          (fun t => t.record_id ≠ id)).filter (fun t => t.record_id = id) = [] := by
        rw [List.filter_eq_nil_iff]
        intro t htm
        rcases List.mem_filter.1 htm with ⟨-, hne⟩
        simpa using hne
      rw [hold, List.nil_append,
        List.filter_eq_self.2 (fun t htm => by
          simpa using newTracks_recordId _ ts _ t htm)]
  · rw [htr, newTracks_map]
  · rw [htr, newTracks_length]

/-- Closed instance of the amended claim C5: replacing the two tracks of
record 0 in `dbA` with a single supplied track (no `genres` key present). -/
theorem update_replaces_tracks_witness :
    get_record dbA 0 = some rA ∧
    updT.tracks = some [⟨"N1", some "C1", none⟩] ∧
    DB.wf dbA = true ∧
    (∀ names, updT.genres = some names → names.Nodup) ∧
    (∃ db' r', update_record dbA 0 updT 3 = Except.ok (some (db', r')) ∧
      (recordTracks db' 0).map trackData
        = [(⟨"N1", some "C1", none⟩ : TrackCreate)].map trackCreateData ∧
      (recordTracks db' 0).length = [(⟨"N1", some "C1", none⟩ : TrackCreate)].length) :=
  ⟨by decide, by decide, by decide, fun _ h => Option.noConfusion h,
   update_replaces_tracks dbA 0 updT 3 [⟨"N1", some "C1", none⟩] rA
     (by decide) (by decide) (by decide) (fun _ h => Option.noConfusion h)⟩

/-- Claim C4 counterexample: the update input `genres := ["Jazz","Jazz"]`
carries a genres key and is in the claim's scope, but the program raises
`IntegrityError` at commit (duplicate membership edge against the
`record_genre` composite primary key) instead of replacing the genre set. -/
theorem update_duplicate_genres_fails :
    updGG.genres = some ["Jazz", "Jazz"] ∧
    update_record dbA 0 updGG 3 = Except.error DbError.integrityError := by
  exact ⟨rfl, rfl⟩

/-- Claim C4, amended to duplicate-free supplied names: when the update input
carries a `genres` key with duplicate-free names, the commit succeeds, the
record's genre set afterwards is exactly the id list resolved from the
supplied names, and a membership edge of this record exists afterwards
precisely for the resolved genres — every previous edge not named in the
input is gone. -/
theorem update_replaces_genres (db : DB) (id : Nat) (u : RecordUpdate)
    (now : Nat) (names : List String) (r : Record)
    (h : get_record db id = some r) (hg : u.genres = some names)
    (hwf : db.wf = true) (hnd : names.Nodup) :
    ∃ db' r', update_record db id u now = Except.ok (some (db', r')) ∧
      r'.genres = (resolveGenres db names).2 ∧
      get_record db' id = some r' ∧
      ∀ g : Nat, ((id, g) ∈ genreEdges db' ↔ g ∈ (resolveGenres db names).2) := by
  have hok : genresOk db u.genres = true := by
    rw [hg]
    simp only [genresOk, decide_eq_true_eq]
    exact resolved_nodup_of_wf db names hwf hnd
  have hrid : r.id = id := by
    have := List.find?_some h
    simpa using this
  have hr'id : (applyUpdate db id u now r).2.id = id := hrid
  have hg' : (applyUpdate db id u now r).2.genres = (resolveGenres db names).2 := by
    simp [applyUpdate, genresStage, hg]
  have hrecs : (applyUpdate db id u now r).1.records
      = db.records.map
          (fun x => if x.id = id then (applyUpdate db id u now r).2 else x) := by
    simp only [applyUpdate]
    rw [tracksStage_records, genresStage_records]
  refine ⟨(applyUpdate db id u now r).1, (applyUpdate db id u now r).2,
    update_record_ok db id u now r h hok, hg', ?_, ?_⟩
  · rw [get_record, hrecs]
    exact find?_map_replace id _ hr'id db.records
      ⟨r, List.mem_of_find?_eq_some h, hrid⟩
  · intro g
    rw [mem_genreEdges_iff, ← hg']
    constructor
    · rintro ⟨x, hx, hxid, hgx⟩
      rw [hrecs] at hx
      rwa [map_replace_eq_of_id id _ db.records x hx hxid] at hgx
    · intro hgr
      refine ⟨(applyUpdate db id u now r).2, ?_, hr'id, hgr⟩
      rw [hrecs]
      exact mem_map_replace_self id _ db.records r
        (List.mem_of_find?_eq_some h) hrid

/-- Closed instance of the amended claim C4: record 0 of `dbA` is tagged
Rock/Pop; the update input carries only `genres := ["Jazz"]`. -/
theorem update_replaces_genres_witness :
    get_record dbA 0 = some rA ∧
    updG.genres = some ["Jazz"] ∧
    DB.wf dbA = true ∧
    (["Jazz"] : List String).Nodup ∧
    (∃ db' r', update_record dbA 0 updG 3 = Except.ok (some (db', r')) ∧
      r'.genres = (resolveGenres dbA ["Jazz"]).2 ∧
      get_record db' 0 = some r' ∧
      ∀ g : Nat, ((0, g) ∈ genreEdges db' ↔ g ∈ (resolveGenres dbA ["Jazz"]).2)) :=
  ⟨by decide, by decide, by decide, by decide,
   update_replaces_genres dbA 0 updG 3 ["Jazz"] rA (by decide) (by decide)
     (by decide) (by decide)⟩

/-- Claim C9 counterexample: a partial update carrying a `title` key together
with the duplicated genre names `["Rock","Rock"]` is in the claim's scope,
but the program raises `IntegrityError` at commit — no field is changed and
`updated_at` is not refreshed, because no updated record exists. -/
theorem update_partial_duplicate_genres_fails :
    update_record dbA 0 updTD 3 = Except.error DbError.integrityError := by
  rfl

/-- Claim C9, amended to inputs whose `genres` key, if present, carries
duplicate-free names: a partial update changes only the fields whose key is
present — every absent field (scalars, genres and tracks alike) keeps its
previous value — while `updated_at` is refreshed to the operation time
regardless, and `updated_at >= created_at` still holds afterwards (the
operation time is not before the record's creation time). -/
theorem update_partial_frame (db : DB) (id : Nat) (u : RecordUpdate)
    (now : Nat) (r : Record)
    (h : get_record db id = some r) (hc : r.created_at ≤ now)
    (hwf : db.wf = true)
    (hgv : ∀ names, u.genres = some names → names.Nodup) :
    ∃ db' r', update_record db id u now = Except.ok (some (db', r')) ∧
      r'.id = r.id ∧
      (u.title = none → r'.title = r.title) ∧
      (u.artist = none → r'.artist = r.artist) ∧
      (u.release_date = none → r'.release_date = r.release_date) ∧
      (u.label = none → r'.label = r.label) ∧
      (u.catalog_number = none → r'.catalog_number = r.catalog_number) ∧
      (u.format = none → r'.format = r.format) ∧
      (u.condition = none → r'.condition = r.condition) ∧
      (u.purchase_date = none → r'.purchase_date = r.purchase_date) ∧
      (u.purchase_price = none → r'.purchase_price = r.purchase_price) ∧
      (u.album_art_url = none → r'.album_art_url = r.album_art_url) ∧
      (u.notes = none → r'.notes = r.notes) ∧
      (u.discogs_url = none → r'.discogs_url = r.discogs_url) ∧
      (u.review_url = none → r'.review_url = r.review_url) ∧
      (u.genres = none → r'.genres = r.genres) ∧
      (u.tracks = none → recordTracks db' id = recordTracks db id) ∧
      r'.created_at = r.created_at ∧
      r'.updated_at = now ∧
      r'.created_at ≤ r'.updated_at ∧
      get_record db' id = some r' := by
  have hrid : r.id = id := by
    have := List.find?_some h
    simpa using this
  have hr'id : (applyUpdate db id u now r).2.id = id := hrid
  have hrecs : (applyUpdate db id u now r).1.records
      = db.records.map
          (fun x => if x.id = id then (applyUpdate db id u now r).2 else x) := by
    simp only [applyUpdate]
    rw [tracksStage_records, genresStage_records]
  refine ⟨(applyUpdate db id u now r).1, (applyUpdate db id u now r).2,
    update_record_ok db id u now r h (genresOk_of_nodup db u.genres hwf hgv),
    rfl,
    fun hx => by simp [applyUpdate, hx],
    fun hx => by simp [applyUpdate, hx],
    fun hx => by simp [applyUpdate, hx],
    fun hx => by simp [applyUpdate, hx],
    fun hx => by simp [applyUpdate, hx],
    fun hx => by simp [applyUpdate, hx],
    fun hx => by simp [applyUpdate, hx],
    fun hx => by simp [applyUpdate, hx],
    fun hx => by simp [applyUpdate, hx],
    fun hx => by simp [applyUpdate, hx],
    fun hx => by simp [applyUpdate, hx],
    fun hx => by simp [applyUpdate, hx],
    fun hx => by simp [applyUpdate, hx],
    fun hx => by simp [applyUpdate, genresStage, hx],
    fun hx => by
      simp only [recordTracks, applyUpdate, hx, tracksStage, genresStage_tracks],
    rfl, rfl, hc, ?_⟩
  rw [get_record, hrecs]
  exact find?_map_replace id _ hr'id db.records
    ⟨r, List.mem_of_find?_eq_some h, hrid⟩

/-- Closed instance of the amended claim C9: updating record 0 of `dbA` with
an input whose only key is `title`. -/
theorem update_partial_frame_witness :
    get_record dbA 0 = some rA ∧ rA.created_at ≤ 3 ∧
    DB.wf dbA = true ∧
    (∀ names, updTitle.genres = some names → names.Nodup) ∧
    (∃ db' r', update_record dbA 0 updTitle 3 = Except.ok (some (db', r')) ∧
      r'.id = rA.id ∧
      (updTitle.title = none → r'.title = rA.title) ∧
      (updTitle.artist = none → r'.artist = rA.artist) ∧
      (updTitle.release_date = none → r'.release_date = rA.release_date) ∧
      (updTitle.label = none → r'.label = rA.label) ∧
      (updTitle.catalog_number = none → r'.catalog_number = rA.catalog_number) ∧
      (updTitle.format = none → r'.format = rA.format) ∧
      (updTitle.condition = none → r'.condition = rA.condition) ∧
      (updTitle.purchase_date = none → r'.purchase_date = rA.purchase_date) ∧
      (updTitle.purchase_price = none → r'.purchase_price = rA.purchase_price) ∧
      (updTitle.album_art_url = none → r'.album_art_url = rA.album_art_url) ∧
      (updTitle.notes = none → r'.notes = rA.notes) ∧
      (updTitle.discogs_url = none → r'.discogs_url = rA.discogs_url) ∧
      (updTitle.review_url = none → r'.review_url = rA.review_url) ∧
      (updTitle.genres = none → r'.genres = rA.genres) ∧
      (updTitle.tracks = none → recordTracks db' 0 = recordTracks dbA 0) ∧
      r'.created_at = rA.created_at ∧
      r'.updated_at = 3 ∧
      r'.created_at ≤ r'.updated_at ∧
      get_record db' 0 = some r') :=
  ⟨by decide, by decide, by decide, fun _ h => Option.noConfusion h,
   update_partial_frame dbA 0 updTitle 3 rA (by decide) (by decide)
     (by decide) (fun _ h => Option.noConfusion h)⟩

/-- Claim C2 (evaluated at the failing input `genres = ["Rock","Rock"]`): the
resolution loop creates only one Genre row — the name created by the first
iteration is found, not re-created, by the second — but it appends one genre
reference per input occurrence, so the record being built carries the genre
list `[0, 0]`: a duplicate genre reference, i.e. a duplicate
`(record_id, genre_id)` row for the join table whose composite primary key
(`models.record_genre`) forbids exactly that, making the commit raise
`IntegrityError` instead of succeeding. -/
theorem duplicate_genre_names_duplicate_edges :
    (resolveGenres DB.empty inpDup.genres).1.genres = [⟨0, "Rock"⟩] ∧
    (resolveGenres DB.empty inpDup.genres).2 = [0, 0] ∧
    (createResult DB.empty inpDup 0).2.genres = [0, 0] ∧
    ¬ (createResult DB.empty inpDup 0).2.genres.Nodup ∧
    ¬ (genreEdges (createResult DB.empty inpDup 0).1).Nodup ∧
    create_record DB.empty inpDup 0 = Except.error DbError.integrityError := by
  refine ⟨by decide, by decide, by decide, by decide, by decide, by rfl⟩

/-- Claim C7 (evaluated at the failing input: empty title, negative price):
`create_record` performs no validation — neither `schemas.RecordBase` nor
`crud.create_record` has any check — so the create succeeds, mutates storage,
and the stored record keeps the empty title and the negative purchase price. -/
theorem create_accepts_invalid_input :
    create_record DB.empty inpBad 0 = Except.ok (createResult DB.empty inpBad 0) ∧
    (createResult DB.empty inpBad 0).1.records.length = 1 ∧
    (createResult DB.empty inpBad 0).2.title = "" ∧
    (createResult DB.empty inpBad 0).2.purchase_price = some (-1) ∧
    get_record (createResult DB.empty inpBad 0).1
        (createResult DB.empty inpBad 0).2.id
      = some (createResult DB.empty inpBad 0).2 := by
  refine ⟨by rfl, by decide, by decide, by decide, by decide⟩

end RecordCollection
